import Mathlib

/-!
Verification development for the `mogilefs` Go client library
(`golang-mogilefs-client`): a shallow embedding of `client.go`,
`net-io.go` and `blacklist.go` together with theorems about the
tracker-selection loop, the line-protocol codec, `GetPaths`, `Fetch`,
`Create` and the blacklist bookkeeping.

Modelling conventions:
* Go `url.Values` (a `map[string][]string`) is an association list with
  one entry per key; `get`/`add`/`set` mirror the Go methods.
* Time is `Nat` (seconds); the Go `time.Time` zero value is `0`, so a
  map read of an absent key yields `0` exactly as in Go.
* Network effects (TCP dial, socket write/read, HTTP) are oracles passed
  to the functions; the functions themselves mirror the Go control flow.
* Go errors are the inductive `GoErr`, one constructor per distinct
  error the source can produce.
* Strings are treated at character level; protocol arguments in this
  development are ASCII, so Go's byte-level escaping coincides with the
  character-level model.
-/

namespace MogileFs

/-- Errors the modelled code can produce; constructors mirror the exact
`error` values created in `client.go` / `net-io.go`, with opaque
underlying errors (dial, write, read, HTTP transport) carried as
message strings. -/
inductive GoErr where
  | dial (msg : String)          -- error from net.DialTimeout
  | sockWrite (msg : String)     -- error from conn.Write
  | sockRead (msg : String)      -- error from bufio Reader.ReadString
  | invalidTrackerReply          -- errors.New("internal:invalid tracker reply")
  | mogilefsd (code : String)    -- fmt.Errorf("mogilefsd:%s", code)
  | escape (msg : String)        -- url.EscapeError from url.ParseQuery
  | httpGetErr (msg : String)    -- transport error from http.Get
  | httpStatus (status : Nat)    -- fmt.Errorf("Invalid HTTP Status code: %d", ...)
  | newRequest (msg : String)    -- error from http.NewRequest
  | httpDoErr (msg : String)     -- transport error from client.Do
  | storageStatus (status : Nat) -- "Invalid HTTP Status code of storage daemon: %d"
  deriving DecidableEq, Repr

/-- Go `url.Values`: a map from key to list of values, modelled as an
association list with at most one entry per key. -/
abbrev Values := List (String × List String)

/-- `url.Values.Get`: first value for the key, `""` when absent or empty. -/
def Values.get (v : Values) (k : String) : String :=
  match v.find? (fun p => p.1 == k) with
  | some (_, x :: _) => x
  | _ => ""

/-- `url.Values.Add`: `v[key] = append(v[key], value)`. -/
def Values.add (v : Values) (k s : String) : Values :=
  match v with
  | [] => [(k, [s])]
  | (k', vs) :: rest =>
    if k' == k then (k', vs ++ [s]) :: rest
    else (k', vs) :: Values.add rest k s

/-- `url.Values.Set`: `v[key] = []string{value}`. -/
def Values.set (v : Values) (k s : String) : Values :=
  match v with
  | [] => [(k, [s])]
  | (k', vs) :: rest =>
    if k' == k then (k', [s]) :: rest
    else (k', vs) :: Values.set rest k s

/-- `Values.get` on an optional map, `""` when the map itself is `nil`
(indexing a nil Go map returns the zero value). -/
def Values.getOpt (v : Option Values) (k : String) : String :=
  match v with
  | some v => Values.get v k
  | none => ""

/-- The `MogileFsClient` struct of `client.go`: domain, tracker list, the
blacklist map `dead_trackers` (host → expiry instant, seconds), the last
tracker touched, and the dial timeout (seconds). -/
structure MogileFsClient where
  domain : String
  trackers : List String
  dead_trackers : List (String × Nat)
  last_tracker : String
  dial_timeout : Nat
  deriving DecidableEq, Repr

/-- `New(domain, trackers)`: fresh client with a one second dial timeout
and an empty blacklist. -/
def New (domain : String) (trackers : List String) : MogileFsClient :=
  { domain := domain
    trackers := trackers
    dead_trackers := []
    last_tracker := ""
    dial_timeout := 1 }

/-- `LastTracketr()` (typo as in the source): the last tracker touched. -/
def LastTracketr (m : MogileFsClient) : String :=
  m.last_tracker

/-! ## blacklist.go -/

/-- `blacklist_duration = time.Duration(60) * time.Second`, in seconds. -/
def blacklist_duration : Nat := 60

/-- Go map read `m.dead_trackers[tracker]`: the stored expiry, or the
`time.Time` zero value (`0`) when the key is absent. -/
def lookupDead (dt : List (String × Nat)) (tracker : String) : Nat :=
  match dt.find? (fun p => p.1 == tracker) with
  | some (_, t) => t
  | none => 0

/-- Go map write `m.dead_trackers[tracker] = t`. -/
def setDead (dt : List (String × Nat)) (tracker : String) (t : Nat) :
    List (String × Nat) :=
  match dt with
  | [] => [(tracker, t)]
  | (k, v) :: rest =>
    if k == tracker then (k, t) :: rest
    else (k, v) :: setDead rest tracker t

/-- `markTrackerAsAlive`: delete the blacklist entry if one is present
(`IsZero() == false`). -/
def markTrackerAsAlive (m : MogileFsClient) (tracker : String) : MogileFsClient :=
  if lookupDead m.dead_trackers tracker != 0 then
    { m with dead_trackers := m.dead_trackers.filter (fun p => p.1 != tracker) }
  else
    m

/-- `trackerIsBad` at clock reading `now`: if the entry is present
(non-zero) and `Before(time.Now())` (strict `<`), expire it via
`markTrackerAsAlive` and report healthy; if present and not yet before
now, report down; absent means healthy.  Returns `(isdown, updated client)`. -/
def trackerIsBad (now : Nat) (m : MogileFsClient) (tracker : String) :
    Bool × MogileFsClient :=
  let t := lookupDead m.dead_trackers tracker
  if t != 0 then
    if t < now then (false, markTrackerAsAlive m tracker)
    else (true, m)
  else
    (false, m)

/-- `markTrackerAsBad` at clock reading `now`: if not already (still)
blacklisted, store expiry `now + blacklist_duration`. -/
def markTrackerAsBad (now : Nat) (m : MogileFsClient) (tracker : String) :
    MogileFsClient :=
  let r := trackerIsBad now m tracker
  if r.1 then r.2
  else { r.2 with dead_trackers := setDead r.2.dead_trackers tracker (now + blacklist_duration) }

/-! ## net-io.go: tracker connection -/

/-- The loop body of `getTrackerConnection`: for each host, record it in
`last_tracker`, dial (the oracle returns `none` on success), break on the
first success; `err` always holds the result of the most recent dial.
Returns `(updated client, connected host, err)`. -/
def gtcLoop (dial : String → Option GoErr) :
    List String → MogileFsClient → Option GoErr →
    MogileFsClient × Option String × Option GoErr
  | [], m, err => (m, none, err)
  | host :: rest, m, _err =>
    let m1 := { m with last_tracker := host }
    match dial host with
    | none => (m1, some host, none)
    | some e => gtcLoop dial rest m1 (some e)

/-- `getTrackerConnection`: try every tracker in list order (the
`fixme: this should blacklist known bad hosts` version in `net-io.go`,
which consults no blacklist).  The connection is identified by the host
it was dialed to. -/
def getTrackerConnection (dial : String → Option GoErr) (m : MogileFsClient) :
    MogileFsClient × Option String × Option GoErr :=
  gtcLoop dial m.trackers m none

/-! ## net-io.go: reply grammars

`reMogileOk  = regexp.MustCompile("^OK (.*)\r\n$")`
`reMogileFail = regexp.MustCompile("^ERR (\\S+) ")`

RE2 semantics on the single line `ReadString('\n')` returns: `.` does not
match `\n`, `$` matches only at end of text, `\S` is the complement of
`[\t\n\f\r ]`, and the greedy `\S+` followed by a literal space captures
the maximal non-whitespace run at position 4 provided the character right
after it is a space. -/

/-- Go regexp `\s` class: `[\t\n\f\r ]`. -/
def isGoSpace (c : Char) : Bool :=
  c == ' ' || c == '\t' || c == '\n' || c == '\x0c' || c == '\r'

/-- Capture of `^OK (.*)\r\n$` on the whole line: the line is
`"OK " ++ mid ++ "\r\n"` with no `'\n'` inside `mid`. -/
def okMatchL : List Char → Option (List Char)
  | 'O' :: 'K' :: ' ' :: rest =>
    match rest.reverse with
    | '\n' :: '\r' :: midrev =>
      if midrev.contains '\n' then none else some midrev.reverse
    | _ => none
  | _ => none

/-- Capture of `^ERR (\S+) `: after `"ERR "`, the maximal non-whitespace
run, which must be non-empty and be followed immediately by a space. -/
def failMatchL : List Char → Option (List Char)
  | 'E' :: 'R' :: 'R' :: ' ' :: rest =>
    let tok := rest.takeWhile (fun c => !isGoSpace c)
    if tok.isEmpty then none
    else if (rest.drop tok.length).head? == some ' ' then some tok
    else none
  | _ => none

/-- String-level wrapper for `reMogileOk`. -/
def okMatch (s : String) : Option String :=
  (okMatchL s.data).map String.mk

/-- String-level wrapper for `reMogileFail`. -/
def failMatch (s : String) : Option String :=
  (failMatchL s.data).map String.mk

/-! ## net/url: ParseQuery and Encode (external stdlib collaborators,
modelled at ASCII character level) -/

/-- Hexadecimal digit test of `url.ishex`. -/
def isHexDigitGo (c : Char) : Bool :=
  ('0' ≤ c && c ≤ '9') || ('a' ≤ c && c ≤ 'f') || ('A' ≤ c && c ≤ 'F')

/-- Value of a hexadecimal digit (`url.unhex`). -/
def hexDigitVal (c : Char) : Nat :=
  if '0' ≤ c && c ≤ '9' then c.toNat - '0'.toNat
  else if 'a' ≤ c && c ≤ 'f' then c.toNat - 'a'.toNat + 10
  else if 'A' ≤ c && c ≤ 'F' then c.toNat - 'A'.toNat + 10
  else 0

/-- `url.QueryUnescape`: `%XX` decodes to the byte `XX` (error unless two
hex digits follow the `%`), `+` decodes to a space, anything else is
itself. -/
def unescapeChars : List Char → Option (List Char)
  | [] => some []
  | '%' :: rest =>
    match rest with
    | a :: b :: rest2 =>
      if isHexDigitGo a && isHexDigitGo b then
        (unescapeChars rest2).map
          (fun l => Char.ofNat (16 * hexDigitVal a + hexDigitVal b) :: l)
      else none
    | _ => none
  | '+' :: rest => (unescapeChars rest).map (fun l => ' ' :: l)
  | c :: rest => (unescapeChars rest).map (fun l => c :: l)

/-- Split the query on `'&'`/`';'` separators, as the `ParseQuery` loop
does by cutting at the first separator each round (empty segments are
kept here and skipped by the parse loop, matching the loop's `continue`
on an empty key). -/
def splitSegsAux : List Char → List Char → List (List Char)
  | [], acc => [acc.reverse]
  | c :: rest, acc =>
    if c == '&' || c == ';' then acc.reverse :: splitSegsAux rest []
    else splitSegsAux rest (c :: acc)

/-- All separator-delimited segments of a query string. -/
def splitSegs (l : List Char) : List (List Char) :=
  splitSegsAux l []

/-- Keep the first error, as `ParseQuery` does
(`if err == nil { err = err1 }`). -/
def keepFirstErr (old new : Option GoErr) : Option GoErr :=
  match old with
  | some e => some e
  | none => new

/-- The `ParseQuery` loop over the segments: skip empty keys, split each
segment at the first `'='`, unescape key and value (on an escape error
record the first error and skip the pair), otherwise
`m[key] = append(m[key], value)`. -/
def parseQuerySegs : List (List Char) → Values → Option GoErr → Values × Option GoErr
  | [], acc, err => (acc, err)
  | seg :: rest, acc, err =>
    if seg.isEmpty then parseQuerySegs rest acc err
    else
      let key := seg.takeWhile (fun c => !(c == '='))
      let value := if key.length < seg.length then seg.drop (key.length + 1) else []
      match unescapeChars key with
      | none =>
        parseQuerySegs rest acc (keepFirstErr err (some (GoErr.escape "invalid URL escape")))
      | some k =>
        match unescapeChars value with
        | none =>
          parseQuerySegs rest acc (keepFirstErr err (some (GoErr.escape "invalid URL escape")))
        | some v =>
          parseQuerySegs rest (Values.add acc (String.mk k) (String.mk v)) err

/-- `url.ParseQuery`: partial map plus first error (a partially filled
map is returned even on error). -/
def parseQuery (s : String) : Values × Option GoErr :=
  parseQuerySegs (splitSegs s.data) [] none

/-- Characters `url.QueryEscape` leaves unescaped: alphanumerics and
`-._~` (query-component mode). -/
def shouldEscapeQuery (c : Char) : Bool :=
  !(('A' ≤ c && c ≤ 'Z') || ('a' ≤ c && c ≤ 'z') || ('0' ≤ c && c ≤ '9') ||
    c == '-' || c == '_' || c == '.' || c == '~')

/-- Upper-case hexadecimal digit of `n < 16`. -/
def hexUpper (n : Nat) : Char :=
  if n < 10 then Char.ofNat ('0'.toNat + n) else Char.ofNat ('A'.toNat + n - 10)

/-- `url.QueryEscape` at character level: space becomes `'+'`, reserved
characters become `%XX`. -/
def queryEscapeChars : List Char → List Char
  | [] => []
  | c :: rest =>
    if c == ' ' then '+' :: queryEscapeChars rest
    else if shouldEscapeQuery c then
      '%' :: hexUpper (c.toNat / 16 % 16) :: hexUpper (c.toNat % 16) :: queryEscapeChars rest
    else c :: queryEscapeChars rest

/-- String-level `url.QueryEscape`. -/
def queryEscape (s : String) : String :=
  String.mk (queryEscapeChars s.data)

/-- Ascending insertion used to model `sort.Strings`. -/
def insertSorted (s : String) : List String → List String
  | [] => [s]
  | t :: ts => if t < s then t :: insertSorted s ts else s :: t :: ts

/-- `sort.Strings`: the key list in ascending order. -/
def sortStrings (l : List String) : List String :=
  l.foldr insertSorted []

/-- `url.Values.Encode`: keys in sorted order, every `key=value` pair
escaped and joined with `'&'`. -/
def Values.encode (v : Values) : String :=
  let keys := sortStrings (v.map (fun p => p.1))
  let parts := keys.flatMap (fun k =>
    match v.find? (fun p => p.1 == k) with
    | some (_, vs) => vs.map (fun s => queryEscape k ++ "=" ++ queryEscape s)
    | none => [])
  String.intercalate "&" parts

/-! ## net-io.go: command names and DoRequest -/

def CMD_GETPATHS : String := "get_paths"
def CMD_RENAME : String := "rename"
def CMD_DELETE : String := "delete"
def CMD_DEBUG : String := "file_debug"

/-- Modelled from the spec: the `create_open` command constant referenced
by `Create` in `client.go` is not defined in the files under `src/`; the
spec's command table gives its wire name. -/
def CMD_CREATE_OPEN : String := "create_open"

/-- Modelled from the spec: the `create_close` command constant referenced
by `Create` in `client.go` is not defined in the files under `src/`; the
spec's command table gives its wire name. -/
def CMD_CREATE_CLOSE : String := "create_close"

/-- One request's view of the network, as oracles: the per-host dial
outcome (`none` = the TCP connect succeeded), the outcome of writing the
command line, and the line read (`ReadString('\n')` returns the data read
so far together with an error when the delimiter was not reached). -/
structure Wire where
  dial : String → Option GoErr
  writeResult : Option GoErr
  readResult : String × Option GoErr

/-- Result of `DoRequest`: the updated client (its `last_tracker`), the
decoded values, the error, and the exact line written to the tracker.
Assumes at least one tracker is configured: with an empty tracker list
the Go code would write to a nil connection and panic. -/
structure DoRequestResult where
  client : MogileFsClient
  values : Option Values
  err : Option GoErr
  sent : String
  deriving Repr

/-- `DoRequest`: encode `command ++ " " ++ args.Encode() ++ "\r\n"`,
acquire a tracker connection, write the line and read one reply line
(releasing the connection), then decode: a non-empty reply is matched
against `reMogileOk` (success: `url.ParseQuery` decides the outcome) and
otherwise against `reMogileFail` (error `mogilefsd:<code>`), and failing
both yields `internal:invalid tracker reply`; an empty reply leaves the
connection/write/read error in place. -/
def DoRequest (w : Wire) (m : MogileFsClient) (command : String) (args : Values) :
    DoRequestResult :=
  let line := command ++ " " ++ Values.encode args ++ "\r\n"
  let acq := getTrackerConnection w.dial m
  let m1 := acq.1
  let ioOut : String × Option GoErr :=
    match acq.2.2 with
    | some e => ("", some e)
    | none =>
      match w.writeResult with
      | some e => ("", some e)
      | none => w.readResult
  let tracker_reply := ioOut.1
  if tracker_reply.length > 0 then
    match okMatch tracker_reply with
    | some mid =>
      let pq := parseQuery mid
      { client := m1, values := some pq.1, err := pq.2, sent := line }
    | none =>
      match failMatch tracker_reply with
      | some code =>
        { client := m1, values := none, err := some (GoErr.mogilefsd code), sent := line }
      | none =>
        { client := m1, values := none, err := some GoErr.invalidTrackerReply, sent := line }
  else
    { client := m1, values := none, err := ioOut.2, sent := line }

/-! ## client.go: GetPaths -/

/-- The `GetPathsOpts` struct (`Pathcount` is a Go `int`). -/
structure GetPathsOpts where
  NoVerify : Bool
  Pathcount : Int
  deriving DecidableEq, Repr

/-- `boolToInt`. -/
def boolToInt (value : Bool) : Nat :=
  if value then 1 else 0

/-- The defaulting and clamping prologue of `GetPaths`: a nil `opts`
becomes `&GetPathsOpts{NoVerify: true}` (so `Pathcount` is the Go zero
`0`), then any `Pathcount < 2` is overwritten with `2`.  The result is
the struct the caller's pointer sees after the call. -/
def getPathsEffOpts (opts : Option GetPathsOpts) : GetPathsOpts :=
  let o := opts.getD { NoVerify := true, Pathcount := 0 }
  if o.Pathcount < 2 then { o with Pathcount := 2 } else o

/-- The argument map `GetPaths` builds: key, domain, pathcount, noverify. -/
def getPathsArgs (domain key : String) (o : GetPathsOpts) : Values :=
  Values.add
    (Values.add
      (Values.add
        (Values.add [] "key" key)
        "domain" domain)
      "pathcount" (toString o.Pathcount))
    "noverify" (toString (boolToInt o.NoVerify))

/-- The scan loop `for i := 1; i < 255; i++` with the remaining fuel made
explicit: read `path<i>`, stop at the first empty value, else collect. -/
def scanPathsAux (values : Values) : Nat → Nat → List String
  | 0, _ => []
  | fuel + 1, i =>
    let thisPath := Values.get values ("path" ++ toString i)
    if thisPath.length = 0 then []
    else thisPath :: scanPathsAux values fuel (i + 1)

/-- The 254-iteration scan of `path1, path2, …` in `GetPaths`. -/
def scanPaths (values : Values) : List String :=
  scanPathsAux values 254 1

/-- Result of `GetPaths`: the collected paths, the request error, the
opts struct as left behind through the caller's pointer, and the argument
map handed to `DoRequest`. -/
structure GetPathsResult where
  paths : List String
  err : Option GoErr
  optsAfter : GetPathsOpts
  argsSent : Values
  deriving Repr

/-- `GetPaths` with the `DoRequest` round-trip abstracted as an oracle
from command and arguments to `(values, err)`: default and clamp the
opts, send `get_paths`, and on success with a non-nil map scan
`path1…`. -/
def GetPaths (doRq : String → Values → Option Values × Option GoErr)
    (domain key : String) (opts : Option GetPathsOpts) : GetPathsResult :=
  let o := getPathsEffOpts opts
  let args := getPathsArgs domain key o
  let r := doRq CMD_GETPATHS args
  let paths :=
    match r.2, r.1 with
    | none, some values => scanPaths values
    | _, _ => []
  { paths := paths, err := r.2, optsAfter := o, argsSent := args }

/-! ## client.go: Fetch -/

/-- An HTTP response as far as `Fetch` consumes it. -/
structure HttpResp where
  status : Nat
  body : String
  deriving DecidableEq, Repr

/-- Result of `Fetch`: the body stream handed to the caller, the error,
and the paths actually requested over HTTP in order. -/
structure FetchResult where
  r : Option String
  err : Option GoErr
  attempts : List String
  deriving DecidableEq, Repr

/-- The `for _, path := range paths` loop of `Fetch`, threading the `err`
variable: each round overwrites `err` with the `http.Get` outcome; a 200
breaks with the body, a non-200 records `Invalid HTTP Status code`, and
the loop falls through with the last recorded error. -/
def fetchLoop (httpGet : String → Except GoErr HttpResp) :
    List String → Option GoErr → FetchResult
  | [], err => { r := none, err := err, attempts := [] }
  | p :: rest, _err =>
    match httpGet p with
    | .error e =>
      let res := fetchLoop httpGet rest (some e)
      { res with attempts := p :: res.attempts }
    | .ok resp =>
      if resp.status == 200 then
        { r := some resp.body, err := none, attempts := [p] }
      else
        let res := fetchLoop httpGet rest (some (GoErr.httpStatus resp.status))
        { res with attempts := p :: res.attempts }

/-- `Fetch`: `GetPaths(key, nil)`, then GET each path in order until a
status 200. -/
def Fetch (doRq : String → Values → Option Values × Option GoErr)
    (httpGet : String → Except GoErr HttpResp)
    (domain key : String) : FetchResult :=
  let gp := GetPaths doRq domain key none
  match gp.err with
  | some e => { r := none, err := some e, attempts := [] }
  | none => fetchLoop httpGet gp.paths none

/-! ## client.go: Create -/

/-- Outcome of the HTTP PUT to a storage path.  `delivered` is the byte
count the transport drained from the request body; the body is wrapped
in `countingReader`, which is modelled from the spec (see
`countingReader_nbytes`). -/
structure PutOracle where
  newReqErr : Option GoErr
  doOutcome : Except GoErr Nat
  delivered : Nat

/-- Modelled from the spec: `countingReader` (referenced by `Create` but
absent from the files under `src/`) is a counting wrapper whose `nbytes`
field tallies the exact bytes read from the source stream, equal to the
bytes actually delivered in the PUT body — a counted total, not an
estimate. -/
def countingReader_nbytes (po : PutOracle) : Nat :=
  po.delivered

/-- The `create_open` argument map: domain, key, class, fid=0,
multi_dest=0 (`Values.Set` calls in source order). -/
def createOpenArgs (domain key cls : String) : Values :=
  Values.set
    (Values.set
      (Values.set
        (Values.set
          (Values.set [] "domain" domain)
          "key" key)
        "class" cls)
      "fid" "0")
    "multi_dest" "0"

/-- The `create_close` argument map: domain and key re-read from
`create_args`, fid/devid/path from the `create_open` response, and the
counted size. -/
def createCloseArgs (create_args create_values : Values) (nbytes : Nat) : Values :=
  Values.set
    (Values.set
      (Values.set
        (Values.set
          (Values.set
            (Values.set [] "domain" (Values.get create_args "domain"))
            "key" (Values.get create_args "key"))
          "fid" (Values.get create_values "fid"))
        "devid" (Values.get create_values "devid"))
      "path" (Values.get create_values "path"))
    "size" (toString nbytes)

/-- Result of `Create`: the `create_close` reply and error as returned to
the caller, whether the PUT was actually issued (`client.Do` invoked),
and the `create_close` arguments when that request was sent. -/
structure CreateResult where
  close_values : Option Values
  err : Option GoErr
  putIssued : Bool
  closeArgs : Option Values
  deriving Repr

/-- `Create`: send `create_open`; only when it returned no error and a
non-empty `path`, build the PUT (a `http.NewRequest` failure aborts),
issue it, and on status 200 send `create_close` with the counted size;
any other status aborts with the storage-daemon error.  With an error or
a missing `path` from `create_open` the function falls through to
`return` with `close_values` nil and `err` exactly as `create_open` left
it. -/
def Create (doRq : String → Values → Option Values × Option GoErr)
    (put : String → PutOracle)
    (domain key cls : String) : CreateResult :=
  let create_args := createOpenArgs domain key cls
  let opened := doRq CMD_CREATE_OPEN create_args
  let create_values := opened.1
  let err0 := opened.2
  if err0.isNone && (Values.getOpt create_values "path").length > 0 then
    let po := put (Values.getOpt create_values "path")
    match po.newReqErr with
    | some e =>
      { close_values := none, err := some e, putIssued := false, closeArgs := none }
    | none =>
      match po.doOutcome with
      | .error e =>
        { close_values := none, err := some e, putIssued := true, closeArgs := none }
      | .ok status =>
        if status == 200 then
          let close_args :=
            createCloseArgs create_args (create_values.getD []) (countingReader_nbytes po)
          let closed := doRq CMD_CREATE_CLOSE close_args
          { close_values := closed.1, err := closed.2, putIssued := true,
            closeArgs := some close_args }
        else
          { close_values := none, err := some (GoErr.storageStatus status),
            putIssued := true, closeArgs := none }
  else
    { close_values := none, err := err0, putIssued := false, closeArgs := none }

/-- Outcome `Fetch`'s loop records for one path: `none` when the GET
succeeded with status 200, otherwise the error the loop stores in `err`
(the transport error, or `Invalid HTTP Status code`). -/
def getOutcomeErr (httpGet : String → Except GoErr HttpResp) (p : String) : Option GoErr :=
  match httpGet p with
  | .error e => some e
  | .ok resp => if resp.status == 200 then none else some (GoErr.httpStatus resp.status)

/-! ## Helper lemmas -/

/-- A string has length zero exactly when it is empty. -/
theorem length_eq_zero_iff' (s : String) : s.length = 0 ↔ s = "" := by
  cases s with
  | mk data =>
    cases data with
    | nil => simp [String.length]
    | cons c cs =>
      constructor
      · intro h; simp [String.length] at h
      · intro h; exact absurd (congrArg String.data h) (by simp)

/-- Reading back a key just stored with `setDead`. -/
theorem lookupDead_setDead (dt : List (String × Nat)) (tracker : String) (t : Nat) :
    lookupDead (setDead dt tracker t) tracker = t := by
  induction dt with
  | nil => simp [setDead, lookupDead]
  | cons p rest ih =>
    obtain ⟨k, v⟩ := p
    by_cases hk : k == tracker
    · simp [setDead, hk, lookupDead]
    · simp only [setDead, hk, if_neg]
      simpa [lookupDead, hk] using ih

/-- Skipping a non-matching head entry in a blacklist lookup. -/
theorem lookupDead_cons_ne (k : String) (v : Nat) (rest : List (String × Nat))
    (tracker : String) (hk : (k == tracker) = false) :
    lookupDead ((k, v) :: rest) tracker = lookupDead rest tracker := by
  simp [lookupDead, List.find?_cons, hk]

/-- After filtering a host out of the blacklist, its lookup yields the
zero time. -/
theorem lookupDead_filter_self (dt : List (String × Nat)) (tracker : String) :
    lookupDead (dt.filter (fun p => p.1 != tracker)) tracker = 0 := by
  induction dt with
  | nil => simp [lookupDead]
  | cons p rest ih =>
    obtain ⟨k, v⟩ := p
    by_cases hk : k == tracker
    · simpa [List.filter_cons, bne, hk] using ih
    · have hkeep : (((k, v) : String × Nat).1 != tracker) = true := by
        simp [bne, hk]
      rw [List.filter_cons, if_pos hkeep,
        lookupDead_cons_ne k v _ tracker (by simpa using hk)]
      exact ih

/-- With a present, unexpired entry (`now ≤ t`, `t ≠ 0`) the tracker is
reported down and the client is unchanged. -/
theorem trackerIsBad_present_le (m : MogileFsClient) (tracker : String) (t now : Nat)
    (hp : lookupDead m.dead_trackers tracker = t) (hnz : t ≠ 0) (hle : now ≤ t) :
    trackerIsBad now m tracker = (true, m) := by
  simp only [trackerIsBad, hp]
  rw [if_pos (by simpa using hnz), if_neg (by omega)]

/-- With a present, expired entry (`t < now`, `t ≠ 0`) the tracker is
reported healthy and its entry is removed from the map. -/
theorem trackerIsBad_present_lt (m : MogileFsClient) (tracker : String) (t now : Nat)
    (hp : lookupDead m.dead_trackers tracker = t) (hnz : t ≠ 0) (hlt : t < now) :
    (trackerIsBad now m tracker).1 = false ∧
    lookupDead (trackerIsBad now m tracker).2.dead_trackers tracker = 0 := by
  simp only [trackerIsBad, hp]
  rw [if_pos (by simpa using hnz), if_pos hlt]
  refine ⟨rfl, ?_⟩
  simp only [markTrackerAsAlive, hp]
  rw [if_pos (by simpa using hnz)]
  exact lookupDead_filter_self m.dead_trackers tracker

/-- Marking a host that has no blacklist entry stores expiry
`now + blacklist_duration`. -/
theorem markTrackerAsBad_fresh (m : MogileFsClient) (tracker : String) (now : Nat)
    (h : lookupDead m.dead_trackers tracker = 0) :
    (markTrackerAsBad now m tracker).dead_trackers =
      setDead m.dead_trackers tracker (now + blacklist_duration) := by
  simp [markTrackerAsBad, trackerIsBad, h]

/-- The dial loop never touches the blacklist or the rest of the client:
only `last_tracker` changes. -/
theorem gtcLoop_frame (dial : String → Option GoErr) :
    ∀ (l : List String) (m : MogileFsClient) (e0 : Option GoErr),
      (gtcLoop dial l m e0).1.dead_trackers = m.dead_trackers ∧
      (gtcLoop dial l m e0).1.domain = m.domain ∧
      (gtcLoop dial l m e0).1.trackers = m.trackers := by
  intro l
  induction l with
  | nil => intro m e0; exact ⟨rfl, rfl, rfl⟩
  | cons host rest ih =>
    intro m e0
    simp only [gtcLoop]
    cases dial host with
    | none => exact ⟨rfl, rfl, rfl⟩
    | some e => exact ih { m with last_tracker := host } (some e)

/-- After the dial loop, `last_tracker` names the connected host on
success, and otherwise the last host attempted (unchanged when the list
was empty). -/
theorem gtcLoop_last_tracker (dial : String → Option GoErr) :
    ∀ (l : List String) (m : MogileFsClient) (e0 : Option GoErr),
      (∀ h, (gtcLoop dial l m e0).2.1 = some h →
        (gtcLoop dial l m e0).1.last_tracker = h) ∧
      ((gtcLoop dial l m e0).2.1 = none →
        (gtcLoop dial l m e0).1.last_tracker = l.getLast?.getD m.last_tracker) := by
  intro l
  induction l with
  | nil =>
    intro m e0
    refine ⟨fun h hc => by simp [gtcLoop] at hc, fun _ => ?_⟩
    simp [gtcLoop]
  | cons host rest ih =>
    intro m e0
    simp only [gtcLoop]
    cases hd : dial host with
    | none =>
      refine ⟨fun h hc => ?_, fun hc => by simp at hc⟩
      simp only [Option.some.injEq] at hc
      simp [← hc]
    | some e =>
      have ihm := ih { m with last_tracker := host } (some e)
      refine ⟨ihm.1, fun hc => ?_⟩
      rw [ihm.2 hc]
      cases rest with
      | nil => simp [List.getLast?]
      | cons r rs =>
        rw [List.getLast?_cons_cons]
        cases hgl : (r :: rs).getLast? with
        | none => simp [List.getLast?_eq_none_iff] at hgl
        | some x => simp [hgl]

/-- `takeWhile` passes over a prefix every element of which satisfies the
predicate. -/
theorem takeWhile_append_all {α : Type} (p : α → Bool) :
    ∀ (l1 l2 : List α), (∀ c ∈ l1, p c = true) →
      (l1 ++ l2).takeWhile p = l1 ++ l2.takeWhile p := by
  intro l1
  induction l1 with
  | nil => intro l2 _; rfl
  | cons c cs ih =>
    intro l2 hall
    have hc : p c = true := hall c (by simp)
    simp only [List.cons_append, List.takeWhile_cons, hc, if_pos]
    rw [ih l2 (fun x hx => hall x (by simp [hx]))]

/-- The `GetPaths` scan collects exactly the longest prefix of non-empty
`path<i>` values over indices `i, i+1, …` with `fuel` iterations left. -/
theorem scanPathsAux_takeWhile (v : Values) :
    ∀ (fuel i : Nat),
      scanPathsAux v fuel i =
        (((List.range' i fuel).map
            (fun j => Values.get v ("path" ++ toString j))).takeWhile
          (fun s => !(s == ""))) := by
  intro fuel
  induction fuel with
  | zero => intro i; rfl
  | succ n ih =>
    intro i
    rw [List.range'_succ]
    simp only [scanPathsAux, List.map_cons, List.takeWhile_cons]
    by_cases he : Values.get v ("path" ++ toString i) = ""
    · simp [he]
    · have hlen : ¬(Values.get v ("path" ++ toString i)).length = 0 := by
        simpa [length_eq_zero_iff'] using he
      simp only [hlen, if_neg, he, beq_iff_eq, if_pos, Bool.not_eq_true']
      simp only [show ((Values.get v ("path" ++ toString i) == "") = false) by
        simpa using he]
      simp [ih (i + 1)]

/-- When every path in the list fails (transport error or non-200), the
`Fetch` loop attempts them all, yields no stream, and leaves the error
recorded for the last path (or the incoming error if the list is empty). -/
theorem fetchLoop_all_fail (httpGet : String → Except GoErr HttpResp) :
    ∀ (paths : List String) (e0 : Option GoErr),
      (∀ q ∈ paths, getOutcomeErr httpGet q ≠ none) →
      (fetchLoop httpGet paths e0).r = none ∧
      (fetchLoop httpGet paths e0).attempts = paths ∧
      (fetchLoop httpGet paths e0).err =
        paths.getLast?.elim e0 (getOutcomeErr httpGet) := by
  intro paths
  induction paths with
  | nil => intro e0 _; exact ⟨rfl, rfl, rfl⟩
  | cons p rest ih =>
    intro e0 hall
    have hp : getOutcomeErr httpGet p ≠ none := hall p (by simp)
    have hrest : ∀ q ∈ rest, getOutcomeErr httpGet q ≠ none :=
      fun q hq => hall q (by simp [hq])
    cases hg : httpGet p with
    | error e =>
      simp only [fetchLoop, hg]
      have ihr := ih (some e) hrest
      refine ⟨ihr.1, by simp [ihr.2.1], ?_⟩
      rw [ihr.2.2]
      cases rest with
      | nil => simp [List.getLast?, getOutcomeErr, hg]
      | cons r rs =>
        rw [List.getLast?_cons_cons]
        cases hgl : (r :: rs).getLast? with
        | none => simp [List.getLast?_eq_none_iff] at hgl
        | some x => simp [hgl]
    | ok resp =>
      simp only [fetchLoop, hg]
      have hst : (resp.status == 200) = false := by
        by_contra hx
        have : resp.status = 200 := by
          simpa using (Bool.not_eq_false _).mp hx
        exact hp (by simp [getOutcomeErr, hg, this])
      rw [if_neg (by simp [hst])]
      have ihr := ih (some (GoErr.httpStatus resp.status)) hrest
      refine ⟨ihr.1, by simp [ihr.2.1], ?_⟩
      rw [ihr.2.2]
      cases rest with
      | nil => simp [List.getLast?, getOutcomeErr, hg, hst]
      | cons r rs =>
        rw [List.getLast?_cons_cons]
        cases hgl : (r :: rs).getLast? with
        | none => simp [List.getLast?_eq_none_iff] at hgl
        | some x => simp [hgl]

/-- When every path before `p` fails and the GET of `p` returns status
200, the `Fetch` loop returns `p`'s body with no error, having attempted
exactly the failing prefix and `p`. -/
theorem fetchLoop_first_ok (httpGet : String → Except GoErr HttpResp) :
    ∀ (pre : List String) (p : String) (rest : List String) (b : String)
      (e0 : Option GoErr),
      (∀ q ∈ pre, getOutcomeErr httpGet q ≠ none) →
      httpGet p = .ok { status := 200, body := b } →
      fetchLoop httpGet (pre ++ p :: rest) e0 =
        { r := some b, err := none, attempts := pre ++ [p] } := by
  intro pre
  induction pre with
  | nil =>
    intro p rest b e0 _ hok
    simp [fetchLoop, hok]
  | cons q qs ih =>
    intro p rest b e0 hall hok
    have hq : getOutcomeErr httpGet q ≠ none := hall q (by simp)
    have hqs : ∀ x ∈ qs, getOutcomeErr httpGet x ≠ none :=
      fun x hx => hall x (by simp [hx])
    cases hg : httpGet q with
    | error e => simp [List.cons_append, fetchLoop, hg, ih p rest b (some e) hqs hok]
    | ok resp =>
      simp only [List.cons_append, fetchLoop, hg]
      have hst : (resp.status == 200) = false := by
        by_contra hx
        have : resp.status = 200 := by
          simpa using (Bool.not_eq_false _).mp hx
        exact hq (by simp [getOutcomeErr, hg, this])
      rw [if_neg (by simp [hst])]
      simp [ih p rest b (some (GoErr.httpStatus resp.status)) hqs hok]

/-- With an established connection and a successful write, a reply line
matching neither grammar makes `DoRequest` fail with the generic
`internal:invalid tracker reply` error. -/
theorem doRequest_err_of_no_match (w : Wire) (m : MogileFsClient)
    (command : String) (args : Values) (line : String)
    (hconn : (getTrackerConnection w.dial m).2.2 = none)
    (hwrite : w.writeResult = none)
    (hr : w.readResult.1 = line) (hlen : 0 < line.length)
    (hok : okMatch line = none) (hfail : failMatch line = none) :
    (DoRequest w m command args).err = some GoErr.invalidTrackerReply := by
  simp only [DoRequest, hconn, hwrite, hr]
  rw [if_pos hlen, hok, hfail]

/-- The character list of an `"ERR " ++ code ++ "\r\n"` line. -/
theorem errLine_data (code : String) :
    ("ERR " ++ code ++ "\r\n").data =
      'E' :: 'R' :: 'R' :: ' ' :: (code.data ++ ['\r', '\n']) := by
  rw [String.data_append, String.data_append,
    show ("ERR " : String).data = ['E', 'R', 'R', ' '] from rfl,
    show ("\r\n" : String).data = ['\r', '\n'] from rfl]
  simp

/-- A line starting with `"ERR"` never matches the `OK` grammar. -/
theorem okMatch_errLine (code : String) :
    okMatch ("ERR " ++ code ++ "\r\n") = none := by
  rw [okMatch, errLine_data]
  rfl

/-- Without a space after the code token, the `ERR` grammar does not
match: `\S+` consumes the whole token and the following character is
`'\r'`, not the required space. -/
theorem failMatchL_err_nospace (code : List Char) (hne : code ≠ [])
    (hnsp : ∀ c ∈ code, isGoSpace c = false) :
    failMatchL ('E' :: 'R' :: 'R' :: ' ' :: (code ++ ['\r', '\n'])) = none := by
  have htok : (code ++ ['\r', '\n']).takeWhile (fun c => !isGoSpace c) = code := by
    rw [takeWhile_append_all (fun c => !isGoSpace c) code ['\r', '\n']
      (fun c hc => by simp [hnsp c hc])]
    simp [show (['\r', '\n'].takeWhile (fun c => !isGoSpace c)) = [] by decide]
  simp only [failMatchL, htok]
  rw [if_neg (by simpa [List.isEmpty_iff] using hne)]
  rw [List.drop_left]
  simp

/-- String-level version of `failMatchL_err_nospace`. -/
theorem failMatch_errLine_nospace (code : String) (hne : code ≠ "")
    (hnsp : ∀ c ∈ code.data, isGoSpace c = false) :
    failMatch ("ERR " ++ code ++ "\r\n") = none := by
  have hdne : code.data ≠ [] := fun h => hne (String.ext h)
  rw [failMatch, errLine_data, failMatchL_err_nospace code.data hdne hnsp]
  rfl

/-- An `"ERR " ++ code ++ "\r\n"` line is non-empty. -/
theorem errLine_length_pos (code : String) :
    0 < ("ERR " ++ code ++ "\r\n").length := by
  rw [String.length_append, String.length_append]
  have h1 : ("ERR " : String).length = 4 := rfl
  omega

/-- The character list of an `"OK " ++ mid ++ "\r\n"` line. -/
theorem okLine_data (mid : String) :
    ("OK " ++ mid ++ "\r\n").data =
      'O' :: 'K' :: ' ' :: (mid.data ++ ['\r', '\n']) := by
  rw [String.data_append, String.data_append,
    show ("OK " : String).data = ['O', 'K', ' '] from rfl,
    show ("\r\n" : String).data = ['\r', '\n'] from rfl]
  simp

/-- An `"OK " ++ mid ++ "\r\n"` line is non-empty. -/
theorem okLine_length_pos (mid : String) :
    0 < ("OK " ++ mid ++ "\r\n").length := by
  rw [String.length_append, String.length_append]
  have h1 : ("OK " : String).length = 3 := rfl
  omega

/-- Every line of the OK grammar — `"OK "`, then a newline-free middle,
then `"\r\n"` — matches `reMogileOk` with the middle as capture. -/
theorem okMatchL_okLine (mid : List Char) (hnl : '\n' ∉ mid) :
    okMatchL ('O' :: 'K' :: ' ' :: (mid ++ ['\r', '\n'])) = some mid := by
  simp only [okMatchL, List.reverse_append]
  rw [show (['\r', '\n'].reverse) = ['\n', '\r'] from rfl]
  simp only [List.cons_append, List.nil_append]
  rw [if_neg (by simpa using hnl)]
  simp

/-- String-level version of `okMatchL_okLine`. -/
theorem okMatch_okLine (mid : String) (hnl : '\n' ∉ mid.data) :
    okMatch ("OK " ++ mid ++ "\r\n") = some mid := by
  rw [okMatch, okLine_data, okMatchL_okLine mid.data hnl]
  rfl

/-- The character list of an `"ERR " ++ code ++ " " ++ rest` line. -/
theorem errSpaceLine_data (code rest : String) :
    ("ERR " ++ code ++ " " ++ rest).data =
      'E' :: 'R' :: 'R' :: ' ' :: (code.data ++ ' ' :: rest.data) := by
  rw [String.data_append, String.data_append, String.data_append,
    show ("ERR " : String).data = ['E', 'R', 'R', ' '] from rfl,
    show (" " : String).data = [' '] from rfl]
  simp

/-- An `"ERR " ++ code ++ " " ++ rest` line is non-empty. -/
theorem errSpaceLine_length_pos (code rest : String) :
    0 < ("ERR " ++ code ++ " " ++ rest).length := by
  rw [String.length_append, String.length_append, String.length_append]
  have h1 : ("ERR " : String).length = 4 := rfl
  omega

/-- A line starting with `"ERR"` never matches the `OK` grammar. -/
theorem okMatch_errSpaceLine (code rest : String) :
    okMatch ("ERR " ++ code ++ " " ++ rest) = none := by
  rw [okMatch, errSpaceLine_data]
  rfl

/-- Every line of the ERR grammar — `"ERR "`, then a non-empty
whitespace-free token, then a space and anything — matches
`reMogileFail` with the token as capture: `\S+` consumes exactly the
token and the required space follows. -/
theorem failMatchL_err_with_space (code rest : List Char) (hne : code ≠ [])
    (hnsp : ∀ c ∈ code, isGoSpace c = false) :
    failMatchL ('E' :: 'R' :: 'R' :: ' ' :: (code ++ ' ' :: rest)) = some code := by
  have htok : (code ++ ' ' :: rest).takeWhile (fun c => !isGoSpace c) = code := by
    rw [takeWhile_append_all (fun c => !isGoSpace c) code (' ' :: rest)
      (fun c hc => by simp [hnsp c hc])]
    simp [List.takeWhile_cons, isGoSpace]
  simp only [failMatchL, htok]
  rw [if_neg (by simpa [List.isEmpty_iff] using hne)]
  rw [List.drop_left]
  simp

/-- String-level version of `failMatchL_err_with_space`. -/
theorem failMatch_errSpaceLine (code rest : String) (hne : code ≠ "")
    (hnsp : ∀ c ∈ code.data, isGoSpace c = false) :
    failMatch ("ERR " ++ code ++ " " ++ rest) = some code := by
  have hdne : code.data ≠ [] := fun h => hne (String.ext h)
  rw [failMatch, errSpaceLine_data,
    failMatchL_err_with_space code.data rest.data hdne hnsp]
  rfl

/-- With an established connection and a successful write, any reply
line of the OK grammar decodes to the `url.ParseQuery` outcome of its
middle: the parsed mapping as values, the parse error (none when the
query string is parseable) as error. -/
theorem doRequest_ok_decode (w : Wire) (m : MogileFsClient)
    (command : String) (args : Values) (mid : String)
    (hconn : (getTrackerConnection w.dial m).2.2 = none)
    (hwrite : w.writeResult = none)
    (hr : w.readResult.1 = "OK " ++ mid ++ "\r\n")
    (hnl : '\n' ∉ mid.data) :
    (DoRequest w m command args).values = some (parseQuery mid).1 ∧
    (DoRequest w m command args).err = (parseQuery mid).2 := by
  simp only [DoRequest, hconn, hwrite, hr]
  rw [if_pos (okLine_length_pos mid), okMatch_okLine mid hnl]
  exact ⟨rfl, rfl⟩

/-- With an established connection and a successful write, any reply
line of the ERR grammar decodes to the structured `mogilefsd:<code>`
error carrying the captured token. -/
theorem doRequest_errcode_decode (w : Wire) (m : MogileFsClient)
    (command : String) (args : Values) (code rest : String)
    (hconn : (getTrackerConnection w.dial m).2.2 = none)
    (hwrite : w.writeResult = none)
    (hr : w.readResult.1 = "ERR " ++ code ++ " " ++ rest)
    (hne : code ≠ "")
    (hnsp : ∀ c ∈ code.data, isGoSpace c = false) :
    (DoRequest w m command args).err = some (GoErr.mogilefsd code) := by
  simp only [DoRequest, hconn, hwrite, hr]
  rw [if_pos (errSpaceLine_length_pos code rest), okMatch_errSpaceLine code rest,
    failMatch_errSpaceLine code rest hne hnsp]

/-! ## Claim theorems -/

/-- C1: the claim says `getTrackerConnection` skips hosts under an
unexpired blacklist entry and blacklists every host whose connect
attempt fails for a 60-second window.  The code does neither (its own
`fixme` comment records the intent): this evaluation shows a host with
an unexpired blacklist entry (expiry 100) being dialed and returned, and
a failing dial leaving `dead_trackers` unchanged while the raw last dial
error is returned. -/
theorem claim1_blacklist_unused :
    (getTrackerConnection (fun _ => none)
      { domain := "d", trackers := ["h1"], dead_trackers := [("h1", 100)],
        last_tracker := "", dial_timeout := 1 }).2.1 = some "h1" ∧
    (getTrackerConnection (fun _ => some (GoErr.dial "connection refused"))
      { domain := "d", trackers := ["h1"], dead_trackers := [("h1", 100)],
        last_tracker := "", dial_timeout := 1 }).1.dead_trackers = [("h1", 100)] ∧
    (getTrackerConnection (fun _ => some (GoErr.dial "connection refused"))
      { domain := "d", trackers := ["h1"], dead_trackers := [("h1", 100)],
        last_tracker := "", dial_timeout := 1 }).2.2 =
      some (GoErr.dial "connection refused") :=
  ⟨rfl, rfl, rfl⟩

/-- C7 counterexample: the claim says an entry whose expiry is less than
or *equal to* the current time is removed and the host treated as
healthy.  At a check exactly at the expiry instant (60 = 60) the code
reports the host down and keeps the entry (`Before` is strict). -/
theorem claim7_counterexample :
    (trackerIsBad 60
      { domain := "d", trackers := ["h"], dead_trackers := [("h", 60)],
        last_tracker := "", dial_timeout := 1 } "h").1 = true ∧
    (trackerIsBad 60
      { domain := "d", trackers := ["h"], dead_trackers := [("h", 60)],
        last_tracker := "", dial_timeout := 1 } "h").2.dead_trackers =
      [("h", 60)] :=
  ⟨rfl, rfl⟩

/-- C7 amended: with a present entry of expiry `t`, a check at `now ≤ t`
reports the host down and leaves the client unchanged, while a check at
`t < now` removes the entry (not merely ignores it) and reports the host
healthy; a host freshly blacklisted at time `T` gets expiry
`T + 60`, so it is down at every check `≤ T + 60` and healthy at every
check `> T + 60`. -/
theorem claim7_amended (m : MogileFsClient) (tracker : String) (t : Nat)
    (hp : lookupDead m.dead_trackers tracker = t) (hnz : t ≠ 0) :
    (∀ now, now ≤ t → trackerIsBad now m tracker = (true, m)) ∧
    (∀ now, t < now → (trackerIsBad now m tracker).1 = false ∧
      lookupDead (trackerIsBad now m tracker).2.dead_trackers tracker = 0) ∧
    (∀ T (m2 : MogileFsClient), lookupDead m2.dead_trackers tracker = 0 →
      lookupDead (markTrackerAsBad T m2 tracker).dead_trackers tracker =
        T + blacklist_duration ∧
      (∀ chk, chk ≤ T + blacklist_duration →
        (trackerIsBad chk (markTrackerAsBad T m2 tracker) tracker).1 = true) ∧
      (∀ chk, T + blacklist_duration < chk →
        (trackerIsBad chk (markTrackerAsBad T m2 tracker) tracker).1 = false)) := by
  refine ⟨fun now hle => trackerIsBad_present_le m tracker t now hp hnz hle,
    fun now hlt => trackerIsBad_present_lt m tracker t now hp hnz hlt, ?_⟩
  intro T m2 h0
  have hset : lookupDead (markTrackerAsBad T m2 tracker).dead_trackers tracker =
      T + blacklist_duration := by
    rw [markTrackerAsBad_fresh m2 tracker T h0]
    exact lookupDead_setDead m2.dead_trackers tracker (T + blacklist_duration)
  have hnz2 : T + blacklist_duration ≠ 0 := by
    simp [blacklist_duration]
  refine ⟨hset, fun chk hchk => ?_, fun chk hchk => ?_⟩
  · rw [trackerIsBad_present_le _ tracker (T + blacklist_duration) chk hset hnz2 hchk]
  · exact (trackerIsBad_present_lt _ tracker (T + blacklist_duration) chk hset hnz2 hchk).1

/-- C7 witness: the amended statement evaluated on a client whose entry
for "h" expires at 100, and on a fresh blacklisting at time 40. -/
theorem claim7_witness :
    (trackerIsBad 100
      { domain := "d", trackers := ["h"], dead_trackers := [("h", 100)],
        last_tracker := "", dial_timeout := 1 } "h").1 = true ∧
    (trackerIsBad 101
      { domain := "d", trackers := ["h"], dead_trackers := [("h", 100)],
        last_tracker := "", dial_timeout := 1 } "h").1 = false ∧
    lookupDead (markTrackerAsBad 40
      { domain := "d", trackers := ["h"], dead_trackers := [],
        last_tracker := "", dial_timeout := 1 } "h").dead_trackers "h" = 100 := by
  have h := claim7_amended
    { domain := "d", trackers := ["h"], dead_trackers := [("h", 100)],
      last_tracker := "", dial_timeout := 1 } "h" 100 rfl (by decide)
  refine ⟨?_, (h.2.1 101 (by decide)).1, ?_⟩
  · rw [h.1 100 (by decide)]
  · exact (h.2.2 40
      { domain := "d", trackers := ["h"], dead_trackers := [],
        last_tracker := "", dial_timeout := 1 } rfl).1

/-- C8 counterexample: the claim says a host whose connect attempt fails
is not recorded as the last tracker used.  With a single tracker whose
dial fails, the call returns no connection yet `LastTracketr` reports
that very host (the code records the host before dialing). -/
theorem claim8_counterexample :
    (getTrackerConnection (fun _ => some (GoErr.dial "connection refused"))
      (New "d" ["h1"])).2.1 = none ∧
    LastTracketr (getTrackerConnection (fun _ => some (GoErr.dial "connection refused"))
      (New "d" ["h1"])).1 = "h1" :=
  ⟨rfl, rfl⟩

/-- C8 amended: `last_tracker` is assigned each host just before its dial
attempt, so after `getTrackerConnection` it names the connected host when
the call succeeds, and otherwise the last host attempted (the final —
failed — tracker of the list; unchanged when the list is empty). -/
theorem claim8_amended (dial : String → Option GoErr) (m : MogileFsClient) :
    (∀ h, (getTrackerConnection dial m).2.1 = some h →
      LastTracketr (getTrackerConnection dial m).1 = h) ∧
    ((getTrackerConnection dial m).2.1 = none →
      LastTracketr (getTrackerConnection dial m).1 =
        m.trackers.getLast?.getD m.last_tracker) := by
  exact gtcLoop_last_tracker dial m.trackers m none

/-- C8 witness: on success the connected host is recorded; on total
failure the last failed host is recorded. -/
theorem claim8_witness :
    LastTracketr (getTrackerConnection (fun _ => none) (New "d" ["h1", "h2"])).1 = "h1" ∧
    LastTracketr (getTrackerConnection (fun _ => some (GoErr.dial "refused"))
      (New "d" ["h1", "h2"])).1 = "h2" := by
  constructor
  · exact (claim8_amended (fun _ => none) (New "d" ["h1", "h2"])).1 "h1" rfl
  · rw [(claim8_amended (fun _ => some (GoErr.dial "refused"))
      (New "d" ["h1", "h2"])).2 rfl]
    rfl

/-- C9: when the caller passes a non-nil `GetPathsOpts` with
`Pathcount < 2`, `GetPaths` writes `2` through the caller's pointer: the
struct visible to the caller after the call has `Pathcount = 2` and so
differs from the value passed in. -/
theorem claim9_opts_mutation (doRq : String → Values → Option Values × Option GoErr)
    (domain key : String) (o : GetPathsOpts) (hlt : o.Pathcount < 2) :
    (GetPaths doRq domain key (some o)).optsAfter = { o with Pathcount := 2 } ∧
    (GetPaths doRq domain key (some o)).optsAfter ≠ o := by
  have heq : (GetPaths doRq domain key (some o)).optsAfter = { o with Pathcount := 2 } := by
    simp [GetPaths, getPathsEffOpts, hlt]
  refine ⟨heq, ?_⟩
  rw [heq]
  intro hcontra
  have h2 : (2 : Int) = o.Pathcount := congrArg GetPathsOpts.Pathcount hcontra
  omega

/-- C9 witness: `Pathcount = 1` comes back as `Pathcount = 2`. -/
theorem claim9_witness :
    (GetPaths (fun _ _ => (none, none)) "d" "k"
      (some { NoVerify := false, Pathcount := 1 })).optsAfter =
      { NoVerify := false, Pathcount := 2 } ∧
    (GetPaths (fun _ _ => (none, none)) "d" "k"
      (some { NoVerify := false, Pathcount := 1 })).optsAfter ≠
      { NoVerify := false, Pathcount := 1 } :=
  claim9_opts_mutation (fun _ _ => (none, none)) "d" "k"
    { NoVerify := false, Pathcount := 1 } (by decide)

/-- C5: omitted (nil) options default to `{NoVerify: true, Pathcount: 2}`;
any caller-supplied `Pathcount < 2` results in `pathcount=2` in the
argument map sent to the tracker; the scan collects the values of
`path1, path2, …` in ascending order, stopping at the first empty or
absent index or after 254 iterations (the longest non-empty prefix over
indices 1..254); and a success response with no `path1` yields the empty
result with no error. -/
theorem claim5_getpaths (doRq : String → Values → Option Values × Option GoErr)
    (domain key : String) :
    getPathsEffOpts none = { NoVerify := true, Pathcount := 2 } ∧
    (∀ o : GetPathsOpts, o.Pathcount < 2 →
      Values.get (GetPaths doRq domain key (some o)).argsSent "pathcount" = "2") ∧
    (∀ v : Values, scanPaths v =
      (((List.range' 1 254).map
          (fun i => Values.get v ("path" ++ toString i))).takeWhile
        (fun s => !(s == "")))) ∧
    (∀ v : Values, Values.get v "path1" = "" →
      doRq CMD_GETPATHS (getPathsArgs domain key (getPathsEffOpts none)) =
        (some v, none) →
      (GetPaths doRq domain key none).paths = [] ∧
      (GetPaths doRq domain key none).err = none) := by
  refine ⟨rfl, ?_, ?_, ?_⟩
  · intro o hlt
    have heff : getPathsEffOpts (some o) = { o with Pathcount := 2 } := by
      simp [getPathsEffOpts, hlt]
    simp only [GetPaths, heff]
    rfl
  · intro v
    exact scanPathsAux_takeWhile v 254 1
  · intro v hv hdo
    have hscan : scanPaths v = [] := by
      rw [scanPaths, scanPathsAux_takeWhile v 254 1, List.range'_succ]
      simp [show ("path" ++ toString 1 : String) = "path1" from rfl, hv]
    constructor
    · simp only [GetPaths, hdo, hscan]
    · simp only [GetPaths, hdo]

/-- C5 witness: the theorem evaluated with `Pathcount = 1` (clamped to
`pathcount=2` on the wire) and with a miss response lacking `path1`. -/
theorem claim5_witness :
    Values.get (GetPaths (fun _ _ => (none, none)) "d" "k"
      (some { NoVerify := true, Pathcount := 1 })).argsSent "pathcount" = "2" ∧
    (GetPaths (fun _ _ => (some [("other", ["1"])], none)) "d" "k" none).paths = [] ∧
    (GetPaths (fun _ _ => (some [("other", ["1"])], none)) "d" "k" none).err = none := by
  refine ⟨(claim5_getpaths (fun _ _ => (none, none)) "d" "k").2.1
    { NoVerify := true, Pathcount := 1 } (by decide), ?_, ?_⟩
  · exact ((claim5_getpaths (fun _ _ => (some [("other", ["1"])], none)) "d" "k").2.2.2
      [("other", ["1"])] (by decide) rfl).1
  · exact ((claim5_getpaths (fun _ _ => (some [("other", ["1"])], none)) "d" "k").2.2.2
      [("other", ["1"])] (by decide) rfl).2

/-- C2 counterexample: the claim says that when the `create_open`
response lacks a non-empty `path` the call *fails* (and no PUT is
issued).  On a response with no `path`, no PUT is issued but the call
returns `err = nil` — it does not fail. -/
theorem claim2_counterexample :
    (Create (fun _ _ => (some [("fid", ["42"])], none))
      (fun _ => { newReqErr := none, doOutcome := .ok 200, delivered := 3 })
      "d" "k" "c").err = none ∧
    (Create (fun _ _ => (some [("fid", ["42"])], none))
      (fun _ => { newReqErr := none, doOutcome := .ok 200, delivered := 3 })
      "d" "k" "c").putIssued = false :=
  ⟨rfl, rfl⟩

/-- C2 amended: a `create_open` failure or a response lacking a non-empty
`path` short-circuits `Create` — no PUT is issued and no `create_close`
is sent, and the call returns nil values with exactly the `create_open`
error (which is nil when the reply parsed as OK without a path, so the
call does not report a failure); a PUT status other than 200 aborts with
the storage-daemon HTTP error and no `create_close` is sent. -/
theorem claim2_amended (doRq : String → Values → Option Values × Option GoErr)
    (put : String → PutOracle) (domain key cls : String) :
    (∀ cv e0, doRq CMD_CREATE_OPEN (createOpenArgs domain key cls) = (cv, e0) →
      (e0 ≠ none ∨ Values.getOpt cv "path" = "") →
      Create doRq put domain key cls =
        { close_values := none, err := e0, putIssued := false, closeArgs := none }) ∧
    (∀ vals st, doRq CMD_CREATE_OPEN (createOpenArgs domain key cls) = (some vals, none) →
      Values.get vals "path" ≠ "" →
      (put (Values.get vals "path")).newReqErr = none →
      (put (Values.get vals "path")).doOutcome = .ok st →
      st ≠ 200 →
      Create doRq put domain key cls =
        { close_values := none, err := some (GoErr.storageStatus st),
          putIssued := true, closeArgs := none }) := by
  constructor
  · intro cv e0 hdo hfail
    rcases hfail with he | hpath
    · obtain ⟨e, rfl⟩ := Option.ne_none_iff_exists'.mp he
      simp [Create, hdo]
    · simp [Create, hdo, hpath]
  · intro vals st hdo hpath hnew hput hst
    have hlen : 0 < (Values.get vals "path").length :=
      Nat.pos_of_ne_zero (fun h => hpath ((length_eq_zero_iff' _).mp h))
    have hguard : ((none : Option GoErr).isNone &&
        decide (0 < (Values.getOpt (some vals) "path").length)) = true := by
      simp [Values.getOpt, hlen]
    simp only [Create, hdo]
    rw [if_pos hguard]
    simp only [Values.getOpt] at hnew hput ⊢
    rw [hnew]
    simp only [hput]
    rw [if_neg (by simp [hst])]

/-- C2 witness: the amended statement at a pathless open response and at
a PUT answered with status 500. -/
theorem claim2_witness :
    Create (fun _ _ => (some [("fid", ["42"])], none))
      (fun _ => { newReqErr := none, doOutcome := .ok 200, delivered := 3 })
      "d" "k" "c" =
      { close_values := none, err := none, putIssued := false, closeArgs := none } ∧
    Create (fun _ _ => (some [("path", ["http://s/1"])], none))
      (fun _ => { newReqErr := none, doOutcome := .ok 500, delivered := 0 })
      "d" "k" "c" =
      { close_values := none, err := some (GoErr.storageStatus 500),
        putIssued := true, closeArgs := none } := by
  constructor
  · exact (claim2_amended (fun _ _ => (some [("fid", ["42"])], none))
      (fun _ => { newReqErr := none, doOutcome := .ok 200, delivered := 3 })
      "d" "k" "c").1 (some [("fid", ["42"])]) none rfl (Or.inr rfl)
  · exact (claim2_amended (fun _ _ => (some [("path", ["http://s/1"])], none))
      (fun _ => { newReqErr := none, doOutcome := .ok 500, delivered := 0 })
      "d" "k" "c").2 [("path", ["http://s/1"])] 500 rfl (by decide) rfl rfl (by decide)

/-- C6 counterexample: the claim says the `create_close` request carries
`domain` and `key` echoed from the `create_open` *response*.  With an
open response that reports `domain = "otherdomain"` and
`key = "otherkey"`, the close request carries the caller's `"d"` and
`"k"` (copied from the request arguments), not the response's values. -/
theorem claim6_counterexample :
    Values.getOpt (Create
      (fun c _ => if c == CMD_CREATE_OPEN then
        (some [("path", ["http://s/1"]), ("fid", ["42"]), ("devid", ["7"]),
               ("domain", ["otherdomain"]), ("key", ["otherkey"])], none)
      else (some [], none))
      (fun _ => { newReqErr := none, doOutcome := .ok 200, delivered := 3 })
      "d" "k" "c").closeArgs "domain" = "d" ∧
    Values.getOpt (Create
      (fun c _ => if c == CMD_CREATE_OPEN then
        (some [("path", ["http://s/1"]), ("fid", ["42"]), ("devid", ["7"]),
               ("domain", ["otherdomain"]), ("key", ["otherkey"])], none)
      else (some [], none))
      (fun _ => { newReqErr := none, doOutcome := .ok 200, delivered := 3 })
      "d" "k" "c").closeArgs "key" = "k" ∧
    ("d" : String) ≠ "otherdomain" ∧ ("k" : String) ≠ "otherkey" := by
  refine ⟨rfl, rfl, by decide, by decide⟩

/-- C6 amended: on PUT success the `create_close` request carries
`domain` and `key` echoed from the `create_open` *request arguments*
(the caller's values), `fid`, `devid` and `path` echoed from the
`create_open` response, and `size` equal to the counted byte total
delivered in the PUT body; the `create_close` response is returned to
the caller as the operation's result. -/
theorem claim6_amended (doRq : String → Values → Option Values × Option GoErr)
    (put : String → PutOracle) (domain key cls : String) (vals : Values)
    (hdo : doRq CMD_CREATE_OPEN (createOpenArgs domain key cls) = (some vals, none))
    (hpath : Values.get vals "path" ≠ "")
    (hnew : (put (Values.get vals "path")).newReqErr = none)
    (hput : (put (Values.get vals "path")).doOutcome = .ok 200) :
    (Create doRq put domain key cls).closeArgs =
      some (createCloseArgs (createOpenArgs domain key cls) vals
        ((put (Values.get vals "path")).delivered)) ∧
    Values.get (createCloseArgs (createOpenArgs domain key cls) vals
      ((put (Values.get vals "path")).delivered)) "domain" = domain ∧
    Values.get (createCloseArgs (createOpenArgs domain key cls) vals
      ((put (Values.get vals "path")).delivered)) "key" = key ∧
    Values.get (createCloseArgs (createOpenArgs domain key cls) vals
      ((put (Values.get vals "path")).delivered)) "fid" = Values.get vals "fid" ∧
    Values.get (createCloseArgs (createOpenArgs domain key cls) vals
      ((put (Values.get vals "path")).delivered)) "devid" = Values.get vals "devid" ∧
    Values.get (createCloseArgs (createOpenArgs domain key cls) vals
      ((put (Values.get vals "path")).delivered)) "path" = Values.get vals "path" ∧
    Values.get (createCloseArgs (createOpenArgs domain key cls) vals
      ((put (Values.get vals "path")).delivered)) "size" =
      toString ((put (Values.get vals "path")).delivered) ∧
    ((Create doRq put domain key cls).close_values, (Create doRq put domain key cls).err) =
      doRq CMD_CREATE_CLOSE (createCloseArgs (createOpenArgs domain key cls) vals
        ((put (Values.get vals "path")).delivered)) := by
  have hlen : 0 < (Values.get vals "path").length :=
    Nat.pos_of_ne_zero (fun h => hpath ((length_eq_zero_iff' _).mp h))
  have hguard : ((none : Option GoErr).isNone &&
      decide (0 < (Values.getOpt (some vals) "path").length)) = true := by
    simp [Values.getOpt, hlen]
  have hcr : Create doRq put domain key cls =
      { close_values := (doRq CMD_CREATE_CLOSE (createCloseArgs (createOpenArgs domain key cls)
          vals (countingReader_nbytes (put (Values.get vals "path"))))).1,
        err := (doRq CMD_CREATE_CLOSE (createCloseArgs (createOpenArgs domain key cls)
          vals (countingReader_nbytes (put (Values.get vals "path"))))).2,
        putIssued := true,
        closeArgs := some (createCloseArgs (createOpenArgs domain key cls)
          vals (countingReader_nbytes (put (Values.get vals "path")))) } := by
    simp only [Create, hdo]
    rw [if_pos hguard]
    simp only [Values.getOpt] at hnew hput ⊢
    rw [hnew]
    simp only [hput]
    simp
  rw [hcr]
  exact ⟨rfl, rfl, rfl, rfl, rfl, rfl, rfl, rfl⟩

/-- C6 witness: the amended statement evaluated on a concrete open
response and a PUT that delivered 3 bytes. -/
theorem claim6_witness :
    (Create (fun c _ => if c == CMD_CREATE_OPEN then
        (some [("path", ["http://s/1"]), ("fid", ["42"]), ("devid", ["7"])], none)
      else (some [("ok", ["1"])], none))
      (fun _ => { newReqErr := none, doOutcome := .ok 200, delivered := 3 })
      "d" "k" "c").closeArgs =
      some [("domain", ["d"]), ("key", ["k"]), ("fid", ["42"]), ("devid", ["7"]),
            ("path", ["http://s/1"]), ("size", ["3"])] := by
  have h := claim6_amended
    (fun c _ => if c == CMD_CREATE_OPEN then
      (some [("path", ["http://s/1"]), ("fid", ["42"]), ("devid", ["7"])], none)
    else (some [("ok", ["1"])], none))
    (fun _ => { newReqErr := none, doOutcome := .ok 200, delivered := 3 })
    "d" "k" "c" [("path", ["http://s/1"]), ("fid", ["42"]), ("devid", ["7"])]
    rfl (by decide) rfl rfl
  exact h.1

/-- C3 counterexample: the claim says an empty path list fails
immediately with an error.  When `GetPaths` succeeds with no paths,
`Fetch` returns no stream, *no error*, and performs no network
attempt. -/
theorem claim3_counterexample :
    Fetch (fun _ _ => (some [("paths", ["0"])], none))
      (fun _ => .error (GoErr.httpGetErr "unused")) "d" "k" =
      { r := none, err := none, attempts := [] } :=
  rfl

/-- C3 amended: `Fetch` resolves paths with default options and GETs each
candidate in order; the first 200 yields the stream (with no error, even
after earlier failures); a non-200 or failed GET is recorded and the next
path tried; when every path fails the recorded error of the last path is
returned; and an empty path list returns immediately with no stream, no
error and no network attempt. -/
theorem claim3_amended (doRq : String → Values → Option Values × Option GoErr)
    (httpGet : String → Except GoErr HttpResp) (domain key : String)
    (hgp : (GetPaths doRq domain key none).err = none) :
    ((GetPaths doRq domain key none).paths = [] →
      Fetch doRq httpGet domain key = { r := none, err := none, attempts := [] }) ∧
    (∀ pre p rest b, (GetPaths doRq domain key none).paths = pre ++ p :: rest →
      (∀ q ∈ pre, getOutcomeErr httpGet q ≠ none) →
      httpGet p = .ok { status := 200, body := b } →
      Fetch doRq httpGet domain key =
        { r := some b, err := none, attempts := pre ++ [p] }) ∧
    ((∀ q ∈ (GetPaths doRq domain key none).paths, getOutcomeErr httpGet q ≠ none) →
      ∀ lp, (GetPaths doRq domain key none).paths.getLast? = some lp →
      (Fetch doRq httpGet domain key).r = none ∧
      (Fetch doRq httpGet domain key).err = getOutcomeErr httpGet lp ∧
      (Fetch doRq httpGet domain key).attempts = (GetPaths doRq domain key none).paths) := by
  have hfetch : Fetch doRq httpGet domain key =
      fetchLoop httpGet (GetPaths doRq domain key none).paths none := by
    simp only [Fetch, hgp]
  refine ⟨fun hemp => ?_, fun pre p rest b hsplit hpre hok => ?_, fun hall lp hlast => ?_⟩
  · rw [hfetch, hemp]
    rfl
  · rw [hfetch, hsplit]
    exact fetchLoop_first_ok httpGet pre p rest b none hpre hok
  · have h := fetchLoop_all_fail httpGet (GetPaths doRq domain key none).paths none hall
    rw [hfetch]
    refine ⟨h.1, ?_, h.2.1⟩
    rw [h.2.2, hlast]
    rfl

/-- C3 witness: `[404, 200 with body "x"]` yields `"x"` with no error,
and `[404, 500]` yields the 500 error of the last path. -/
theorem claim3_witness :
    Fetch (fun _ _ => (some [("path1", ["a"]), ("path2", ["b"])], none))
      (fun p => if p == "b" then .ok { status := 200, body := "x" }
                else .ok { status := 404, body := "" }) "d" "k" =
      { r := some "x", err := none, attempts := ["a", "b"] } ∧
    (Fetch (fun _ _ => (some [("path1", ["a"]), ("path2", ["b"])], none))
      (fun p => if p == "b" then .ok { status := 500, body := "" }
                else .ok { status := 404, body := "" }) "d" "k").err =
      some (GoErr.httpStatus 500) := by
  constructor
  · exact ((claim3_amended (fun _ _ => (some [("path1", ["a"]), ("path2", ["b"])], none))
      (fun p => if p == "b" then .ok { status := 200, body := "x" }
                else .ok { status := 404, body := "" }) "d" "k" rfl).2.1
      ["a"] "b" [] "x" rfl (by decide) rfl)
  · exact (((claim3_amended (fun _ _ => (some [("path1", ["a"]), ("path2", ["b"])], none))
      (fun p => if p == "b" then .ok { status := 500, body := "" }
                else .ok { status := 404, body := "" }) "d" "k" rfl).2.2
      (by decide) "b" rfl).2.1).trans (by decide)

/-- C4 counterexample: the claim says an empty/absent reply line (the
connection closed before any data arrived) decodes to
`ProtocolError("invalid tracker reply")`.  With an empty reply the
`len(tracker_reply) > 0` guard skips decoding entirely and `DoRequest`
surfaces the read error (here EOF) instead. -/
theorem claim4_counterexample :
    (DoRequest
      { dial := fun _ => none, writeResult := none,
        readResult := ("", some (GoErr.sockRead "EOF")) }
      (New "d" ["h1"]) CMD_GETPATHS []).err = some (GoErr.sockRead "EOF") ∧
    (DoRequest
      { dial := fun _ => none, writeResult := none,
        readResult := ("", some (GoErr.sockRead "EOF")) }
      (New "d" ["h1"]) CMD_GETPATHS []).err ≠ some GoErr.invalidTrackerReply :=
  ⟨rfl, by decide⟩

/-- C4 amended: with an established connection and successful write,
*every* reply line matching the OK grammar (`"OK " ++ mid ++ "\r\n"`
with a newline-free middle) decodes to the `url.ParseQuery` outcome of
its middle — the success key/value mapping, with no error whenever the
query string is parseable; *every* reply line matching the ERR grammar
(`"ERR " ++ code ++ " " ++ rest` with a non-empty whitespace-free code
token) yields the structured error carrying the code token; a
*non-empty* line matching neither grammar yields
`internal:invalid tracker reply`; and an empty/absent line (connection
closed before any data) leaves the read error in place instead of the
protocol error. -/
theorem claim4_amended (w : Wire) (m : MogileFsClient) (command : String)
    (args : Values)
    (hconn : (getTrackerConnection w.dial m).2.2 = none)
    (hwrite : w.writeResult = none) :
    (∀ mid, w.readResult.1 = "OK " ++ mid ++ "\r\n" → '\n' ∉ mid.data →
      (DoRequest w m command args).values = some (parseQuery mid).1 ∧
      (DoRequest w m command args).err = (parseQuery mid).2 ∧
      ((parseQuery mid).2 = none → (DoRequest w m command args).err = none)) ∧
    (∀ code rest, w.readResult.1 = "ERR " ++ code ++ " " ++ rest →
      code ≠ "" → (∀ c ∈ code.data, isGoSpace c = false) →
      (DoRequest w m command args).err = some (GoErr.mogilefsd code)) ∧
    (∀ line, w.readResult.1 = line → 0 < line.length →
      okMatch line = none → failMatch line = none →
      (DoRequest w m command args).err = some GoErr.invalidTrackerReply) ∧
    (∀ e, w.readResult = ("", some e) →
      (DoRequest w m command args).err = some e) := by
  refine ⟨fun mid hr hnl => ?_, fun code rest hr hne hnsp => ?_,
    fun line hr hlen hok hfail => ?_, fun e hr => ?_⟩
  · have h := doRequest_ok_decode w m command args mid hconn hwrite hr hnl
    exact ⟨h.1, h.2, fun hpq => h.2.trans hpq⟩
  · exact doRequest_errcode_decode w m command args code rest hconn hwrite hr hne hnsp
  · exact doRequest_err_of_no_match w m command args line hconn hwrite hr hlen hok hfail
  · simp only [DoRequest, hconn, hwrite, hr]
    rfl

/-- C4 witness: the amended statement instantiated on the example lines
`"OK key1=val1&key2=val2\r\n"` (middle `key1=val1&key2=val2`),
`"ERR unknown_key some message\r\n"` (code `unknown_key`), the
neither-grammar line `"garbage\r\n"`, and the empty reply with a closed
connection. -/
theorem claim4_witness :
    (DoRequest
      { dial := fun _ => none, writeResult := none,
        readResult := ("OK key1=val1&key2=val2\r\n", none) }
      (New "d" ["h1"]) CMD_GETPATHS []).values =
      some [("key1", ["val1"]), ("key2", ["val2"])] ∧
    (DoRequest
      { dial := fun _ => none, writeResult := none,
        readResult := ("OK key1=val1&key2=val2\r\n", none) }
      (New "d" ["h1"]) CMD_GETPATHS []).err = none ∧
    (DoRequest
      { dial := fun _ => none, writeResult := none,
        readResult := ("ERR unknown_key some message\r\n", none) }
      (New "d" ["h1"]) CMD_GETPATHS []).err = some (GoErr.mogilefsd "unknown_key") ∧
    (DoRequest
      { dial := fun _ => none, writeResult := none,
        readResult := ("garbage\r\n", none) }
      (New "d" ["h1"]) CMD_GETPATHS []).err = some GoErr.invalidTrackerReply ∧
    (DoRequest
      { dial := fun _ => none, writeResult := none,
        readResult := ("", some (GoErr.sockRead "closed")) }
      (New "d" ["h1"]) CMD_GETPATHS []).err = some (GoErr.sockRead "closed") := by
  refine ⟨?_, ?_, ?_, ?_, ?_⟩
  · exact ((claim4_amended
      { dial := fun _ => none, writeResult := none,
        readResult := ("OK key1=val1&key2=val2\r\n", none) }
      (New "d" ["h1"]) CMD_GETPATHS [] rfl rfl).1 "key1=val1&key2=val2"
      rfl (by decide)).1
  · exact ((claim4_amended
      { dial := fun _ => none, writeResult := none,
        readResult := ("OK key1=val1&key2=val2\r\n", none) }
      (New "d" ["h1"]) CMD_GETPATHS [] rfl rfl).1 "key1=val1&key2=val2"
      rfl (by decide)).2.2 rfl
  · exact (claim4_amended
      { dial := fun _ => none, writeResult := none,
        readResult := ("ERR unknown_key some message\r\n", none) }
      (New "d" ["h1"]) CMD_GETPATHS [] rfl rfl).2.1 "unknown_key" "some message\r\n"
      rfl (by decide) (by decide)
  · exact (claim4_amended
      { dial := fun _ => none, writeResult := none,
        readResult := ("garbage\r\n", none) }
      (New "d" ["h1"]) CMD_GETPATHS [] rfl rfl).2.2.1
      "garbage\r\n" rfl (by decide) (by decide) (by decide)
  · exact (claim4_amended
      { dial := fun _ => none, writeResult := none,
        readResult := ("", some (GoErr.sockRead "closed")) }
      (New "d" ["h1"]) CMD_GETPATHS [] rfl rfl).2.2.2
      (GoErr.sockRead "closed") rfl

/-- C10: a reply of the form `"ERR <code>\r\n"` with no message text (no
space after the code token) fails the `^ERR (\S+) ` pattern, so
`DoRequest` returns the generic `internal:invalid tracker reply` error
rather than the structured application error carrying the code. -/
theorem claim10_err_without_message (w : Wire) (m : MogileFsClient)
    (command : String) (args : Values) (code : String)
    (hconn : (getTrackerConnection w.dial m).2.2 = none)
    (hwrite : w.writeResult = none)
    (hread : w.readResult.1 = "ERR " ++ code ++ "\r\n")
    (hne : code ≠ "")
    (hnsp : ∀ c ∈ code.data, isGoSpace c = false) :
    (DoRequest w m command args).err = some GoErr.invalidTrackerReply ∧
    (DoRequest w m command args).err ≠ some (GoErr.mogilefsd code) := by
  have h := doRequest_err_of_no_match w m command args ("ERR " ++ code ++ "\r\n")
    hconn hwrite hread (errLine_length_pos code) (okMatch_errLine code)
    (failMatch_errLine_nospace code hne hnsp)
  exact ⟨h, by rw [h]; simp⟩

/-- C10 witness: `"ERR somecode\r\n"` yields the generic protocol error,
not `mogilefsd:somecode`. -/
theorem claim10_witness :
    (DoRequest
      { dial := fun _ => none, writeResult := none,
        readResult := ("ERR somecode\r\n", none) }
      (New "d" ["h1"]) CMD_GETPATHS []).err = some GoErr.invalidTrackerReply ∧
    (DoRequest
      { dial := fun _ => none, writeResult := none,
        readResult := ("ERR somecode\r\n", none) }
      (New "d" ["h1"]) CMD_GETPATHS []).err ≠ some (GoErr.mogilefsd "somecode") :=
  claim10_err_without_message
    { dial := fun _ => none, writeResult := none,
      readResult := ("ERR somecode\r\n", none) }
    (New "d" ["h1"]) CMD_GETPATHS [] "somecode" rfl rfl (by decide) (by decide)
    (by decide)

end MogileFs
